import Mathlib

/-!
Verification development for the srsLTE per-carrier MAC scheduler
(`srsenb/src/stack/mac/scheduler_carrier.cc`).

The C++ is shallowly embedded: the three sub-schedulers (`bc_sched`,
`ra_sched`, `carrier_sched`) become pure Lean functions over explicit state,
with the external collaborators (the subframe-slot allocation primitives,
the data metrics, RRC paging, the UE/HARQ interface) passed in as function
parameters.  Machine integers are modelled as `Nat`; TTIs wrap at 10240
where the source wraps them.
-/

set_option maxRecDepth 8192

namespace srsenb

/-- Outcome type of the sf_sched allocation primitives (`alloc_outcome_t`). -/
inductive alloc_outcome_t where
  | SUCCESS
  | DCI_COLLISION
  | RB_COLLISION
  | INVALID_CODERATE
  | ERROR
deriving DecidableEq, Repr

/-- `dl_sched_rar_info_t`: one PRACH detection reported through `dl_rach_info`. -/
structure dl_sched_rar_info_t where
  prach_tti : Nat
  preamble_idx : Nat
  ta_cmd : Nat
  temp_crnti : Nat
  msg3_size : Nat
deriving DecidableEq, Repr

/-- `sf_sched::pending_rar_t`.  `msg3_grant` models the valid prefix
`msg3_grant[0 .. nof_grants)` of the fixed-capacity C array; `nof_grants`
mirrors the source field of the same name. -/
structure pending_rar_t where
  ra_rnti : Nat
  prach_tti : Nat
  nof_grants : Nat
  msg3_grant : List dl_sched_rar_info_t
deriving DecidableEq, Repr

/-- Return code `SRSLTE_SUCCESS`. -/
def SRSLTE_SUCCESS : Int := 0

/-- Modelled from the spec: the capacity of `pending_rar_t::msg3_grant`
(`sched_interface::MAX_RAR_LIST`, declared in a header outside this tree;
the spec says the preamble list per RA-RNTI is capped, "e.g. 16"). -/
def MAX_RAR_LIST : Nat := 16

/-- RA-RNTI derivation used by `ra_sched::dl_rach_info` (FDD, f_id = 0):
`ra_rnti = 1 + prach_tti % 10`. -/
def ra_rnti_of (prach_tti : Nat) : Nat := 1 + prach_tti % 10

/-- The search loop of `ra_sched::dl_rach_info`: find the first pending RAR
with the same `(prach_tti, ra_rnti)` and append the new grant at index
`nof_grants`; `none` when no pending RAR matches.  Note the source performs
the write `r.msg3_grant[r.nof_grants] = rar_info; r.nof_grants++` without
any capacity check. -/
def rach_append (info : dl_sched_rar_info_t) (ra_rnti : Nat) :
    List pending_rar_t → Option (List pending_rar_t)
  | [] => none
  | r :: rest =>
    if r.prach_tti = info.prach_tti ∧ ra_rnti = r.ra_rnti then
      some ({ r with msg3_grant := r.msg3_grant ++ [info],
                     nof_grants := r.nof_grants + 1 } :: rest)
    else
      (rach_append info ra_rnti rest).map (r :: ·)

/-- State owned by `ra_sched`: the FIFO of pending RARs. -/
structure ra_sched_state where
  pending_rars : List pending_rar_t
deriving DecidableEq, Repr

/-- `ra_sched::dl_rach_info`: append to the matching pending RAR if one
exists, otherwise enqueue a new pending RAR at the tail.  The source always
returns `SRSLTE_SUCCESS`. -/
def dl_rach_info (s : ra_sched_state) (info : dl_sched_rar_info_t) :
    Int × ra_sched_state :=
  match rach_append info (ra_rnti_of info.prach_tti) s.pending_rars with
  | some l => (SRSLTE_SUCCESS, ⟨l⟩)
  | none =>
    (SRSLTE_SUCCESS,
      ⟨s.pending_rars ++ [{ ra_rnti := ra_rnti_of info.prach_tti,
                            prach_tti := info.prach_tti,
                            nof_grants := 1, msg3_grant := [info] }]⟩)

/-- `ra_sched::reset`: clear the pending-RAR FIFO. -/
def ra_sched_reset (_ : ra_sched_state) : ra_sched_state := ⟨[]⟩

/-- Modelled from the spec: `sched_utils::is_in_tti_interval` (declared in a
scheduler header outside this tree).  The spec defines the RAR window as
`[w_lo, w_hi)` with the upper bound exclusive. -/
def is_in_tti_interval (tti lo hi : Nat) : Bool :=
  decide (lo ≤ tti) && decide (tti < hi)

/-- Observable events of one `ra_sched::dl_sched` run: each call into
`sf_sched::alloc_rar` and each expired-window pop. -/
inductive ra_dl_event where
  | alloc_attempt (rar : pending_rar_t) (outcome : alloc_outcome_t) (granted : Nat)
  | window_overflow_pop (rar : pending_rar_t)
deriving DecidableEq, Repr

/-- The while-loop of `ra_sched::dl_sched`.  `O` is the external
`sf_sched::alloc_rar` (returning the `(outcome, granted)` pair and the
updated slot state `σ`); `fuel` bounds the number of iterations, the Bool
in the result recording whether the loop exited on its own (the C++ loop
has no such bound and can fail to terminate, see the C10 theorems).  The
event list records each alloc attempt and each expired-window pop. -/
def ra_dl_sched_loop {σ : Type} (window tti_tx_dl : Nat)
    (O : σ → pending_rar_t → (alloc_outcome_t × Nat) × σ) :
    Nat → σ → List pending_rar_t → List ra_dl_event →
    Bool × σ × List pending_rar_t × List ra_dl_event
  | 0, st, rars, tr => (false, st, rars, tr)
  | fuel + 1, st, rars, tr =>
    match rars with
    | [] => (true, st, [], tr)
    | rar :: rest =>
      if is_in_tti_interval tti_tx_dl (rar.prach_tti + 3) (rar.prach_tti + 3 + window) = false then
        -- discard if the window has passed; stop if it has not started yet
        if rar.prach_tti + 3 + window ≤ tti_tx_dl then
          ra_dl_sched_loop window tti_tx_dl O fuel st rest
            (tr ++ [.window_overflow_pop rar])
        else
          (true, st, rar :: rest, tr)
      else
        -- try to schedule DCI + RBGs for the RAR grant
        let tr' := tr ++ [.alloc_attempt rar (O st rar).1.1 (O st rar).1.2]
        if (O st rar).1.1 = .SUCCESS then
          if (O st rar).1.2 = rar.nof_grants then
            ra_dl_sched_loop window tti_tx_dl O fuel (O st rar).2 rest tr'
          else if 0 < (O st rar).1.2 then
            -- keep the grants that were not scheduled (compact to the front)
            ra_dl_sched_loop window tti_tx_dl O fuel (O st rar).2
              ({ rar with msg3_grant := rar.msg3_grant.drop (O st rar).1.2,
                          nof_grants := rar.nof_grants - (O st rar).1.2 } :: rest) tr'
          else
            ra_dl_sched_loop window tti_tx_dl O fuel (O st rar).2 (rar :: rest) tr'
        else if (O st rar).1.1 = .RB_COLLISION then
          (true, (O st rar).2, rar :: rest, tr')
        else
          -- any other outcome: loop again (the source neither pops nor stops)
          ra_dl_sched_loop window tti_tx_dl O fuel (O st rar).2 (rar :: rest) tr'

/-- One pending Msg3 in a subframe slot (`sf_sched::pending_msg3_t`). -/
structure pending_msg3_t where
  rnti : Nat
  n_prb : Nat
  L : Nat
  mcs : Nat
deriving DecidableEq, Repr

/-- `ra_sched::ul_sched`: drain the slot's pending-Msg3 queue.  Every entry
is popped, whether the UE lookup fails (warn and drop) or the external
`sf_sched::alloc_ul` is attempted (either outcome pops).  Returns the
remaining queue (always empty) and the list of entries for which
`alloc_ul` was attempted.  The pending-RAR FIFO is not touched. -/
def ra_ul_sched (ue_known : Nat → Bool) :
    List pending_msg3_t → List pending_msg3_t × List pending_msg3_t
  | [] => ([], [])
  | m :: rest =>
    if ue_known m.rnti then
      let r := ra_ul_sched ue_known rest
      (r.1, m :: r.2)
    else
      ra_ul_sched ue_known rest

/-! ### C1: `dl_rach_info` on a saturated preamble list -/

/-- A pending RAR whose preamble list is saturated (`nof_grants = MAX_RAR_LIST`). -/
def c1_sat_rar : pending_rar_t :=
  { ra_rnti := 1, prach_tti := 200, nof_grants := MAX_RAR_LIST,
    msg3_grant := (List.range MAX_RAR_LIST).map (fun k => ⟨200, k, 0, 70 + k, 7⟩) }

/-- C1 (code bug): the source of `ra_sched::dl_rach_info` has no capacity
check at all.  Called with a `(prach_tti, ra_rnti)` matching a pending RAR
whose preamble list is already saturated at `MAX_RAR_LIST`, it still returns
`SRSLTE_SUCCESS` and performs the append (in the C++ this is a write past
the end of the fixed `msg3_grant` array), instead of failing with
`RACH_BUFFER_FULL` and leaving the queue unchanged as the spec requires. -/
theorem dl_rach_info_saturated_overflows :
    dl_rach_info ⟨[c1_sat_rar]⟩ ⟨200, 17, 0, 90, 7⟩ =
      (SRSLTE_SUCCESS,
        ⟨[{ c1_sat_rar with
              msg3_grant := c1_sat_rar.msg3_grant ++ [⟨200, 17, 0, 90, 7⟩],
              nof_grants := MAX_RAR_LIST + 1 }]⟩) ∧
    MAX_RAR_LIST < MAX_RAR_LIST + 1 := by
  exact ⟨rfl, by decide⟩

/-! ### C2: partial RAR grant does not stop the loop -/

/-- An external `alloc_rar` model that always reports `(SUCCESS, 1)`;
the slot state counts the calls made. -/
def one_granter : Nat → pending_rar_t → (alloc_outcome_t × Nat) × Nat :=
  fun calls _ => ((.SUCCESS, 1), calls + 1)

/-- A pending RAR with two grants, in window at `tti_tx_dl = 104`. -/
def c2_rar : pending_rar_t :=
  { ra_rnti := 1, prach_tti := 100, nof_grants := 2,
    msg3_grant := [⟨100, 1, 0, 70, 7⟩, ⟨100, 2, 0, 71, 7⟩] }

/-- C2 counterexample: after `alloc_rar` returns `(SUCCESS, 1)` on the head
RAR with `nof_grants = 2` (a partial grant), the loop does NOT stop: it calls
`alloc_rar` a second time on the same head within the same TTI (here the
remaining grant is then placed and the RAR popped), so the run ends with
`pending_rars` empty and two alloc attempts, not with the compacted RAR still
at the head after a single attempt as the claim states. -/
theorem ra_dl_sched_partial_does_not_stop :
    (ra_dl_sched_loop 10 104 one_granter 10 0 [c2_rar] []).2.2.1 = [] ∧
    (ra_dl_sched_loop 10 104 one_granter 10 0 [c2_rar] []).2.2.2.length = 2 ∧
    (ra_dl_sched_loop 10 104 one_granter 10 0 [c2_rar] []).2.1 = 2 := by
  exact ⟨rfl, rfl, rfl⟩

/-- C2 (amended): when `alloc_rar` on the head RAR returns `SUCCESS` with
`0 < granted < nof_grants`, the iteration compacts the unsent grants to the
front of `msg3_grant`, decrements `nof_grants` by the granted count and keeps
the RAR at the head of the queue (queue length unchanged by this iteration) —
but the loop then CONTINUES on this same head within the same TTI instead of
stopping. -/
theorem ra_dl_sched_partial_grant_step {σ : Type} (window tti_tx_dl : Nat)
    (O : σ → pending_rar_t → (alloc_outcome_t × Nat) × σ)
    (fuel : Nat) (st : σ) (rar : pending_rar_t) (rest : List pending_rar_t)
    (tr : List ra_dl_event)
    (hwin : is_in_tti_interval tti_tx_dl (rar.prach_tti + 3) (rar.prach_tti + 3 + window) = true)
    (hsucc : (O st rar).1.1 = .SUCCESS)
    (hpos : 0 < (O st rar).1.2)
    (hlt : (O st rar).1.2 < rar.nof_grants) :
    ra_dl_sched_loop window tti_tx_dl O (fuel + 1) st (rar :: rest) tr =
      ra_dl_sched_loop window tti_tx_dl O fuel (O st rar).2
        ({ rar with msg3_grant := rar.msg3_grant.drop (O st rar).1.2,
                    nof_grants := rar.nof_grants - (O st rar).1.2 } :: rest)
        (tr ++ [.alloc_attempt rar (O st rar).1.1 (O st rar).1.2]) := by
  have hne : ¬ (O st rar).1.2 = rar.nof_grants := Nat.ne_of_lt hlt
  simp only [ra_dl_sched_loop, hwin, hsucc, hne, hpos, Bool.true_eq_false,
    if_false, if_true, if_pos, if_neg, not_false_eq_true]

/-- Witness for the amended C2 theorem at a concrete input. -/
theorem ra_dl_sched_partial_grant_step_witness :
    ra_dl_sched_loop 10 104 one_granter (3 + 1) 0 [c2_rar] [] =
      ra_dl_sched_loop 10 104 one_granter 3 (one_granter 0 c2_rar).2
        ({ c2_rar with msg3_grant := c2_rar.msg3_grant.drop (one_granter 0 c2_rar).1.2,
                       nof_grants := c2_rar.nof_grants - (one_granter 0 c2_rar).1.2 } :: [])
        ([] ++ [.alloc_attempt c2_rar (one_granter 0 c2_rar).1.1 (one_granter 0 c2_rar).1.2]) :=
  ra_dl_sched_partial_grant_step 10 104 one_granter 3 0 c2_rar [] []
    (by decide) (by decide) (by decide) (by decide)

/-! ### C10: termination of the RAR loop -/

/-- An external `alloc_rar` model that always fails with `ERROR`
(so in particular never returns `(SUCCESS, 0)`). -/
def err_alloc : Unit → pending_rar_t → (alloc_outcome_t × Nat) × Unit :=
  fun _ _ => ((.ERROR, 0), ())

/-- A pending RAR with one grant, in window at `tti_tx_dl = 104`. -/
def c10_rar : pending_rar_t :=
  { ra_rnti := 1, prach_tti := 100, nof_grants := 1,
    msg3_grant := [⟨100, 1, 0, 70, 7⟩] }

/-- C10 counterexample: with an `alloc_rar` that never returns `SUCCESS` at
all (constant `ERROR`, hence in particular never `(SUCCESS, 0)`), the loop
makes no progress on a single in-window RAR: 100 fuel iterations are
exhausted without the loop returning, and the queue still holds the same
head.  This refutes the claimed trichotomy ("every iteration pops the head,
strictly decreases its `nof_grants`, or returns") and with it the claimed
termination: the `ERROR`/`DCI_COLLISION` branch also re-executes on the same
unchanged head. -/
theorem ra_dl_sched_error_no_progress :
    (ra_dl_sched_loop 10 104 err_alloc 100 () [c10_rar] []).1 = false ∧
    (ra_dl_sched_loop 10 104 err_alloc 100 () [c10_rar] []).2.2.1 = [c10_rar] := by
  exact ⟨rfl, rfl⟩

/-- Sum over the queue of `nof_grants + 1`: the termination measure of the
`ra_sched::dl_sched` loop. -/
def rar_measure (rars : List pending_rar_t) : Nat :=
  (rars.map (fun r => r.nof_grants + 1)).sum

theorem rar_measure_cons (r : pending_rar_t) (l : List pending_rar_t) :
    rar_measure (r :: l) = r.nof_grants + 1 + rar_measure l := by
  simp [rar_measure]

/-- An external `alloc_rar` model that always reports an RB collision. -/
def rb_alloc : Unit → pending_rar_t → (alloc_outcome_t × Nat) × Unit :=
  fun _ _ => ((.RB_COLLISION, 0), ())

/-- C10 (amended): the `ra_sched::dl_sched` loop terminates for every input
state under the precondition that `alloc_rar` only ever returns `SUCCESS`
with `0 < granted ≤ nof_grants` or `RB_COLLISION` (each iteration then pops
the head, strictly decreases its `nof_grants`, or returns); every fuel bound
above the measure `rar_measure` suffices.  If `alloc_rar` instead returns any
other outcome (`DCI_COLLISION`, `ERROR`, ...) — or `SUCCESS` with a granted
count of 0 — the iteration leaves the queue and the head RAR unchanged and
the loop re-executes on the same head. -/
theorem ra_dl_sched_termination_amended {σ : Type} (window tti_tx_dl : Nat)
    (O : σ → pending_rar_t → (alloc_outcome_t × Nat) × σ) :
    ((∀ (st : σ) (rar : pending_rar_t),
        ((O st rar).1.1 = .SUCCESS ∧ 0 < (O st rar).1.2 ∧ (O st rar).1.2 ≤ rar.nof_grants)
          ∨ (O st rar).1.1 = .RB_COLLISION) →
      ∀ (fuel : Nat) (st : σ) (rars : List pending_rar_t) (tr : List ra_dl_event),
        rar_measure rars < fuel →
        (ra_dl_sched_loop window tti_tx_dl O fuel st rars tr).1 = true) ∧
    (∀ (fuel : Nat) (st : σ) (rar : pending_rar_t) (rest : List pending_rar_t)
        (tr : List ra_dl_event),
      is_in_tti_interval tti_tx_dl (rar.prach_tti + 3) (rar.prach_tti + 3 + window) = true →
      (O st rar).1.1 ≠ .SUCCESS → (O st rar).1.1 ≠ .RB_COLLISION →
      ra_dl_sched_loop window tti_tx_dl O (fuel + 1) st (rar :: rest) tr =
        ra_dl_sched_loop window tti_tx_dl O fuel (O st rar).2 (rar :: rest)
          (tr ++ [.alloc_attempt rar (O st rar).1.1 (O st rar).1.2])) ∧
    (∀ (fuel : Nat) (st : σ) (rar : pending_rar_t) (rest : List pending_rar_t)
        (tr : List ra_dl_event),
      is_in_tti_interval tti_tx_dl (rar.prach_tti + 3) (rar.prach_tti + 3 + window) = true →
      (O st rar).1.1 = .SUCCESS → (O st rar).1.2 = 0 → rar.nof_grants ≠ 0 →
      ra_dl_sched_loop window tti_tx_dl O (fuel + 1) st (rar :: rest) tr =
        ra_dl_sched_loop window tti_tx_dl O fuel (O st rar).2 (rar :: rest)
          (tr ++ [.alloc_attempt rar (O st rar).1.1 (O st rar).1.2])) := by
  refine ⟨?_, ?_, ?_⟩
  · intro hO fuel
    induction fuel with
    | zero => intro st rars tr h; exact absurd h (by omega)
    | succ n ih =>
      intro st rars tr h
      match rars with
      | [] => simp [ra_dl_sched_loop]
      | rar :: rest =>
        rw [rar_measure_cons] at h
        by_cases hwin : is_in_tti_interval tti_tx_dl (rar.prach_tti + 3)
            (rar.prach_tti + 3 + window) = true
        · rcases hO st rar with ⟨hs, hg, hle⟩ | hrb
          · by_cases heq : (O st rar).1.2 = rar.nof_grants
            · simp only [ra_dl_sched_loop, hwin, hs, heq, Bool.true_eq_false, if_false,
                if_true, if_pos, if_neg, not_false_eq_true]
              exact ih (O st rar).2 rest _ (by omega)
            · simp only [ra_dl_sched_loop, hwin, hs, heq, hg, Bool.true_eq_false, if_false,
                if_true, if_pos, if_neg, not_false_eq_true]
              refine ih (O st rar).2 _ _ ?_
              rw [rar_measure_cons]
              simp only []
              omega
          · simp [ra_dl_sched_loop, hwin, hrb]
        · simp only [Bool.not_eq_true] at hwin
          by_cases hhi : rar.prach_tti + 3 + window ≤ tti_tx_dl
          · simp only [ra_dl_sched_loop, hwin, hhi, if_true, if_pos]
            exact ih st rest _ (by omega)
          · simp [ra_dl_sched_loop, hwin, hhi]
  · intro fuel st rar rest tr hwin hns hnrb
    simp only [ra_dl_sched_loop, hwin, hns, hnrb, Bool.true_eq_false, if_false,
      if_neg, not_false_eq_true]
  · intro fuel st rar rest tr hwin hs hz hnz
    have hne : ¬ (O st rar).1.2 = rar.nof_grants := by rw [hz]; exact fun hc => hnz hc.symm
    simp only [ra_dl_sched_loop, hwin, hs, hne, hz, Bool.true_eq_false, if_false,
      if_true, if_pos, if_neg, not_false_eq_true, Nat.lt_irrefl]
    rw [if_neg (fun hc => hnz hc.symm)]

/-- Witness for the amended C10 theorem at concrete inputs: an
`RB_COLLISION`-only allocator terminates within the measure bound, and a
constant-`ERROR` allocator yields the no-progress step. -/
theorem ra_dl_sched_termination_amended_witness :
    (ra_dl_sched_loop 10 104 rb_alloc 3 () [c10_rar] []).1 = true ∧
    ra_dl_sched_loop 10 104 err_alloc (5 + 1) () (c10_rar :: []) [] =
      ra_dl_sched_loop 10 104 err_alloc 5 (err_alloc () c10_rar).2 (c10_rar :: [])
        ([] ++ [.alloc_attempt c10_rar (err_alloc () c10_rar).1.1 (err_alloc () c10_rar).1.2]) :=
  ⟨(ra_dl_sched_termination_amended 10 104 rb_alloc).1
      (fun _ _ => Or.inr rfl) 3 () [c10_rar] [] (by decide),
   (ra_dl_sched_termination_amended 10 104 err_alloc).2.1
      5 () c10_rar [] [] (by decide) (by decide) (by decide)⟩

/-! ### C3: RAR window discipline -/

/-- Window respect of one `ra_sched::dl_sched` event: alloc attempts lie
inside `[prach_tti + 3, prach_tti + 3 + window)`, overflow pops happen at or
after the window end. -/
def ra_ev_window_ok (window tti_tx_dl : Nat) : ra_dl_event → Prop
  | .alloc_attempt rar _ _ =>
      rar.prach_tti + 3 ≤ tti_tx_dl ∧ tti_tx_dl < rar.prach_tti + 3 + window
  | .window_overflow_pop rar => rar.prach_tti + 3 + window ≤ tti_tx_dl

theorem ra_dl_sched_trace_sound {σ : Type} (window tti_tx_dl : Nat)
    (O : σ → pending_rar_t → (alloc_outcome_t × Nat) × σ) :
    ∀ (fuel : Nat) (st : σ) (rars : List pending_rar_t) (tr : List ra_dl_event),
      (∀ ev ∈ tr, ra_ev_window_ok window tti_tx_dl ev) →
      ∀ ev ∈ (ra_dl_sched_loop window tti_tx_dl O fuel st rars tr).2.2.2,
        ra_ev_window_ok window tti_tx_dl ev := by
  intro fuel
  induction fuel with
  | zero => intro st rars tr htr ev h; exact htr ev h
  | succ n ih =>
    intro st rars tr htr ev h
    match rars with
    | [] => exact htr ev h
    | rar :: rest =>
      by_cases hwin : is_in_tti_interval tti_tx_dl (rar.prach_tti + 3)
          (rar.prach_tti + 3 + window) = true
      · have hb : rar.prach_tti + 3 ≤ tti_tx_dl ∧ tti_tx_dl < rar.prach_tti + 3 + window := by
          simpa [is_in_tti_interval] using hwin
        have htr' : ∀ (o : alloc_outcome_t) (g : Nat),
            ∀ ev' ∈ tr ++ [ra_dl_event.alloc_attempt rar o g],
              ra_ev_window_ok window tti_tx_dl ev' := by
          intro o g ev' hev'
          rcases List.mem_append.mp hev' with hold | hnew
          · exact htr ev' hold
          · rw [List.mem_singleton.mp hnew]; exact hb
        cases ho : (O st rar).1.1 with
        | SUCCESS =>
          by_cases heq : (O st rar).1.2 = rar.nof_grants
          · simp only [ra_dl_sched_loop, hwin, ho, heq, reduceIte, reduceCtorEq, eq_self_iff_true] at h
            exact ih _ _ _ (htr' _ _) ev h
          · by_cases hg : 0 < (O st rar).1.2
            · simp only [ra_dl_sched_loop, hwin, ho, heq, hg, reduceIte, reduceCtorEq, eq_self_iff_true] at h
              exact ih _ _ _ (htr' _ _) ev h
            · simp only [ra_dl_sched_loop, hwin, ho, heq, hg, reduceIte, reduceCtorEq, eq_self_iff_true] at h
              exact ih _ _ _ (htr' _ _) ev h
        | DCI_COLLISION =>
          simp only [ra_dl_sched_loop, hwin, ho, reduceIte, reduceCtorEq, eq_self_iff_true] at h
          exact ih _ _ _ (htr' _ _) ev h
        | RB_COLLISION =>
          simp only [ra_dl_sched_loop, hwin, ho, reduceIte, reduceCtorEq, eq_self_iff_true] at h
          exact htr' _ _ ev h
        | INVALID_CODERATE =>
          simp only [ra_dl_sched_loop, hwin, ho, reduceIte, reduceCtorEq, eq_self_iff_true] at h
          exact ih _ _ _ (htr' _ _) ev h
        | ERROR =>
          simp only [ra_dl_sched_loop, hwin, ho, reduceIte, reduceCtorEq, eq_self_iff_true] at h
          exact ih _ _ _ (htr' _ _) ev h
      · simp only [Bool.not_eq_true] at hwin
        by_cases hhi : rar.prach_tti + 3 + window ≤ tti_tx_dl
        · have htr' : ∀ ev' ∈ tr ++ [ra_dl_event.window_overflow_pop rar],
              ra_ev_window_ok window tti_tx_dl ev' := by
            intro ev' hev'
            rcases List.mem_append.mp hev' with hold | hnew
            · exact htr ev' hold
            · rw [List.mem_singleton.mp hnew]; exact hhi
          simp only [ra_dl_sched_loop, hwin, hhi, if_true, if_pos] at h
          exact ih _ _ _ htr' ev h
        · simp only [ra_dl_sched_loop, hwin, hhi, if_true, if_pos, if_neg,
            not_false_eq_true] at h
          exact htr ev h

/-- C3: for every run of the `ra_sched::dl_sched` loop, (1) every
`alloc_rar` attempt on a pending RAR happens at a TTI inside that RAR's
window `[prach_tti + 3, prach_tti + 3 + window)` — so never before
`prach_tti + 3` — and every overflow pop happens at or after the window end;
(2) when the head's window has not started, the loop returns at once,
leaving queue and slot untouched and processing no later entry either; and
(3) whenever the head's window has passed
(`prach_tti + 3 + window ≤ tti_tx_dl`) the head is popped with an overflow
event, without being allocated. -/
theorem ra_dl_sched_window_discipline {σ : Type} (window tti_tx_dl : Nat)
    (O : σ → pending_rar_t → (alloc_outcome_t × Nat) × σ)
    (fuel : Nat) (st : σ) (rars : List pending_rar_t) :
    (∀ ev ∈ (ra_dl_sched_loop window tti_tx_dl O fuel st rars []).2.2.2,
        ra_ev_window_ok window tti_tx_dl ev) ∧
    (∀ (rar : pending_rar_t) (rest : List pending_rar_t),
        rars = rar :: rest → tti_tx_dl < rar.prach_tti + 3 →
        (ra_dl_sched_loop window tti_tx_dl O fuel st rars []).2 = (st, rars, [])) ∧
    (∀ (fuel' : Nat) (st' : σ) (rar : pending_rar_t) (rest : List pending_rar_t)
        (tr : List ra_dl_event),
        rar.prach_tti + 3 + window ≤ tti_tx_dl →
        ra_dl_sched_loop window tti_tx_dl O (fuel' + 1) st' (rar :: rest) tr =
          ra_dl_sched_loop window tti_tx_dl O fuel' st' rest
            (tr ++ [.window_overflow_pop rar])) := by
  refine ⟨ra_dl_sched_trace_sound window tti_tx_dl O fuel st rars [] (by simp), ?_, ?_⟩
  · intro rar rest hr hlt
    subst hr
    have hwin : is_in_tti_interval tti_tx_dl (rar.prach_tti + 3)
        (rar.prach_tti + 3 + window) = false := by
      simp [is_in_tti_interval, Nat.not_le.mpr hlt]
    have hhi : ¬ rar.prach_tti + 3 + window ≤ tti_tx_dl := by omega
    match fuel with
    | 0 => rfl
    | n + 1 =>
      simp only [ra_dl_sched_loop, hwin, hhi, if_true, if_pos, if_neg, not_false_eq_true]
  · intro fuel' st' rar rest tr hhi
    have hwin : is_in_tti_interval tti_tx_dl (rar.prach_tti + 3)
        (rar.prach_tti + 3 + window) = false := by
      simp [is_in_tti_interval]
      omega
    simp only [ra_dl_sched_loop, hwin, hhi, if_true, if_pos]

/-- A pending RAR with one grant, used for the C3 witness. -/
def c3_rar : pending_rar_t :=
  { ra_rnti := 1, prach_tti := 100, nof_grants := 1,
    msg3_grant := [⟨100, 3, 0, 72, 7⟩] }

/-- Witness for the C3 theorem at concrete inputs: a concrete alloc attempt
obeys the window bounds; and at `tti_tx_dl = 101 < 103` the loop leaves the
queue untouched. -/
theorem ra_dl_sched_window_discipline_witness :
    ra_ev_window_ok 10 104 (.alloc_attempt c3_rar .SUCCESS 1) ∧
    (ra_dl_sched_loop 10 101 one_granter 10 0 [c3_rar] []).2 = (0, [c3_rar], []) :=
  ⟨(ra_dl_sched_window_discipline 10 104 one_granter 10 0 [c3_rar]).1 _ (by decide),
   (ra_dl_sched_window_discipline 10 101 one_granter 10 0 [c3_rar]).2.1 c3_rar [] rfl
     (by decide)⟩

/-! ### C4: monotonicity of the pending-RAR queue -/

/-- `pending_rars` ordered by `prach_tti`, non-decreasing from head to tail. -/
def rars_sorted (rars : List pending_rar_t) : Prop :=
  rars.Pairwise (fun a b => a.prach_tti ≤ b.prach_tti)

/-- C4 counterexample: `dl_rach_info` enqueues at the tail without looking at
`prach_tti`, so two calls with out-of-order PRACH TTIs (10 then 5, distinct
RA-RNTIs) leave `pending_rars` unsorted: the head's `prach_tti = 10` exceeds
the second entry's `5`. -/
theorem dl_rach_info_can_unsort :
    ¬ rars_sorted
        (dl_rach_info (dl_rach_info ⟨[]⟩ ⟨10, 1, 0, 70, 7⟩).2 ⟨5, 2, 0, 71, 7⟩).2.pending_rars := by
  unfold rars_sorted
  decide

theorem rach_append_prach_ttis (info : dl_sched_rar_info_t) (rnti : Nat) :
    ∀ (rars l : List pending_rar_t), rach_append info rnti rars = some l →
      l.map pending_rar_t.prach_tti = rars.map pending_rar_t.prach_tti := by
  intro rars
  induction rars with
  | nil => intro l h; simp [rach_append] at h
  | cons r rest ih =>
    intro l h
    by_cases hc : r.prach_tti = info.prach_tti ∧ rnti = r.ra_rnti
    · rw [rach_append, if_pos hc] at h
      cases h
      simp
    · rw [rach_append, if_neg hc] at h
      cases hr : rach_append info rnti rest with
      | none => rw [hr] at h; simp at h
      | some l' =>
        rw [hr] at h
        simp only [Option.map_some'] at h
        cases h
        simp [ih l' hr]

/-- C4 (amended): `dl_sched` (for any external `alloc_rar` behaviour, any
fuel) and `reset` preserve the non-decreasing `prach_tti` order of
`pending_rars`; `ul_sched` does not touch the queue at all (see
`ra_ul_sched`); and `dl_rach_info` preserves the order exactly when the new
detection's `prach_tti` is ≥ every pending entry's `prach_tti` — i.e. under
in-order PRACH arrivals.  An out-of-order `dl_rach_info` call violates the
order (see the counterexample), so the unconditional claim fails. -/
theorem pending_rars_monotone_amended :
    (∀ (s : ra_sched_state) (info : dl_sched_rar_info_t),
        rars_sorted s.pending_rars →
        (∀ r ∈ s.pending_rars, r.prach_tti ≤ info.prach_tti) →
        rars_sorted (dl_rach_info s info).2.pending_rars) ∧
    (∀ (σ : Type) (window tti_tx_dl : Nat)
        (O : σ → pending_rar_t → (alloc_outcome_t × Nat) × σ)
        (fuel : Nat) (st : σ) (rars : List pending_rar_t) (tr : List ra_dl_event),
        rars_sorted rars →
        rars_sorted (ra_dl_sched_loop window tti_tx_dl O fuel st rars tr).2.2.1) ∧
    (∀ s : ra_sched_state, rars_sorted (ra_sched_reset s).pending_rars) := by
  refine ⟨?_, ?_, ?_⟩
  · intro s info hsort hle
    unfold dl_rach_info
    cases happ : rach_append info (ra_rnti_of info.prach_tti) s.pending_rars with
    | some l =>
      show rars_sorted l
      have hmap := rach_append_prach_ttis info (ra_rnti_of info.prach_tti)
        s.pending_rars l happ
      unfold rars_sorted at hsort ⊢
      rw [← List.pairwise_map (f := pending_rar_t.prach_tti)] at hsort ⊢
      rw [hmap]
      exact hsort
    | none =>
      show rars_sorted (s.pending_rars ++ [_])
      unfold rars_sorted
      rw [List.pairwise_append]
      refine ⟨hsort, by simp, ?_⟩
      intro a ha b hb
      rw [List.mem_singleton.mp hb]
      exact hle a ha
  · intro σ window tti_tx_dl O fuel
    induction fuel with
    | zero => intro st rars tr h; exact h
    | succ n ih =>
      intro st rars tr h
      match rars with
      | [] => simpa [ra_dl_sched_loop] using h
      | rar :: rest =>
        have hrest : rars_sorted rest := (List.pairwise_cons.mp h).2
        by_cases hwin : is_in_tti_interval tti_tx_dl (rar.prach_tti + 3)
            (rar.prach_tti + 3 + window) = true
        · by_cases hs : (O st rar).1.1 = alloc_outcome_t.SUCCESS
          · by_cases heq : (O st rar).1.2 = rar.nof_grants
            · simp only [ra_dl_sched_loop, hwin, hs, heq, Bool.true_eq_false, if_false,
                if_true, if_pos, if_neg, not_false_eq_true]
              exact ih _ _ _ hrest
            · by_cases hg : 0 < (O st rar).1.2
              · simp only [ra_dl_sched_loop, hwin, hs, heq, hg, Bool.true_eq_false, if_false,
                  if_true, if_pos, if_neg, not_false_eq_true]
                refine ih _ _ _ ?_
                refine List.pairwise_cons.mpr ⟨?_, hrest⟩
                intro b hb
                exact (List.pairwise_cons.mp h).1 b hb
              · simp only [ra_dl_sched_loop, hwin, hs, heq, hg, Bool.true_eq_false, if_false,
                  if_true, if_pos, if_neg, not_false_eq_true]
                exact ih _ _ _ h
          · by_cases hrb : (O st rar).1.1 = alloc_outcome_t.RB_COLLISION
            · simp only [ra_dl_sched_loop, hwin, hs, hrb, Bool.true_eq_false, if_false,
                if_true, if_pos, if_neg, not_false_eq_true]
              exact h
            · simp only [ra_dl_sched_loop, hwin, hs, hrb, Bool.true_eq_false, if_false,
                if_true, if_pos, if_neg, not_false_eq_true]
              exact ih _ _ _ h
        · simp only [Bool.not_eq_true] at hwin
          by_cases hhi : rar.prach_tti + 3 + window ≤ tti_tx_dl
          · simp only [ra_dl_sched_loop, hwin, hhi, if_true, if_pos]
            exact ih _ _ _ hrest
          · simp only [ra_dl_sched_loop, hwin, hhi, if_true, if_pos, if_neg,
              not_false_eq_true]
            exact h
  · intro s
    exact List.Pairwise.nil

/-- Witness for the amended C4 theorem: an in-order `dl_rach_info` call on a
sorted one-entry queue keeps the queue sorted. -/
theorem pending_rars_monotone_amended_witness :
    rars_sorted (dl_rach_info ⟨[c3_rar]⟩ ⟨200, 1, 0, 80, 7⟩).2.pending_rars :=
  pending_rars_monotone_amended.1 ⟨[c3_rar]⟩ ⟨200, 1, 0, 80, 7⟩
    (by unfold rars_sorted; decide) (by decide)

/-! ### Broadcast scheduler (`bc_sched`), for C5 -/

/-- Modelled from the spec: `FDD_TX_DELAY` ("tti_tx_dl = tti_rx +
FDD_TX_DELAY (typically 4)"); the constant is defined outside this tree. -/
def FDD_TX_DELAY : Nat := 4

/-- Modelled from the spec: TTIs are 10-bit subframe indices wrapping
at 10240. -/
def TTIMOD : Nat := 10240

/-- `sf_sched::get_tti_tx_dl()` for a slot bound to `tti_rx` (spec §6). -/
def tti_tx_dl_of (tti_rx : Nat) : Nat := (tti_rx + FDD_TX_DELAY) % TTIMOD

/-- Per-SIB configuration entry (`cell_cfg_t::sibs[i]`): payload length and
period in radio frames. -/
structure cell_sib_cfg_t where
  len : Nat
  period_rf : Nat
deriving DecidableEq, Repr

/-- The slice of `cell_cfg_t` that `bc_sched` reads. -/
structure bc_cfg_t where
  sibs : List cell_sib_cfg_t
  si_window_ms : Nat
deriving DecidableEq, Repr

/-- `bc_sched::sched_sib_t`: per-SIB window state. -/
structure sched_sib_t where
  is_in_window : Bool
  window_start : Nat
  n_tx : Nat
deriving DecidableEq, Repr

/-- The zero-initialised `sched_sib_t` (`pending_sibs[i] = {}`). -/
def sched_sib_init : sched_sib_t := ⟨false, 0, 0⟩

/-- Modelled from the spec: `srslte_tti_interval` (library helper outside
this tree) — the "tti_tx_dl − window_start" difference with wrap-around at
10240. -/
def srslte_tti_interval (tti1 tti2 : Nat) : Nat := (tti1 + TTIMOD - tti2) % TTIMOD

/-- Modelled from the spec: `srslte::ceil_div` (library helper outside this
tree) — ceiling division. -/
def ceil_div (a b : Nat) : Nat := (a + b - 1) / b

/-- The body of `bc_sched::update_si_windows` for one SIB index `i`. -/
def update_si_window_one (cfg : bc_cfg_t) (sfn sf_idx tti_tx_dl : Nat)
    (i : Nat) (sib_cfg : cell_sib_cfg_t) (p : sched_sib_t) : sched_sib_t :=
  if sib_cfg.len = 0 then p
  else if p.is_in_window = false then
    -- window opening: `x = (i > 0) ? (i-1)*si_window_ms : 0`, `sf = (i > 0) ? x%10 : 5`
    match i with
    | 0 =>
      if sfn % sib_cfg.period_rf = 0 ∧ sf_idx = 5 then
        { is_in_window := true, window_start := tti_tx_dl, n_tx := 0 }
      else p
    | j + 1 =>
      if sfn % sib_cfg.period_rf = (j * cfg.si_window_ms) / 10 ∧
          sf_idx = (j * cfg.si_window_ms) % 10 then
        { is_in_window := true, window_start := tti_tx_dl, n_tx := 0 }
      else p
  else if 0 < i then
    -- the SI window has passed
    if cfg.si_window_ms < srslte_tti_interval tti_tx_dl p.window_start then sched_sib_init
    else p
  else
    -- SIB1 is always in window; n_tx wraps at 4
    if p.n_tx = 4 then { p with n_tx := 0 } else p

/-- `bc_sched::update_si_windows`: fold `update_si_window_one` over the SIB
table (index-paired with the pending state). -/
def update_si_windows_go (cfg : bc_cfg_t) (sfn sf_idx tti_tx_dl : Nat) :
    Nat → List cell_sib_cfg_t → List sched_sib_t → List sched_sib_t
  | _, _, [] => []
  | _, [], ps => ps
  | i, c :: cs, p :: ps =>
    update_si_window_one cfg sfn sf_idx tti_tx_dl i c p ::
      update_si_windows_go cfg sfn sf_idx tti_tx_dl (i + 1) cs ps

/-- One `sf_sched::alloc_bc` call emitted by `bc_sched::alloc_sibs`
(aggregation level, SIB index, retransmission counter, downlink TTI). -/
structure bc_alloc_t where
  aggr_level : Nat
  sib_idx : Nat
  n_tx : Nat
  tti_tx_dl : Nat
deriving DecidableEq, Repr

/-- `bc_sched::alloc_sibs`: for each SIB in window with `n_tx < 4`, fire
SIB1 on even SFN at `sf_idx = 5`, and SIB `i>0` on `sf_idx = 9` when the
evenly-spaced point of the window is reached; on fire call `alloc_bc` at
aggregation level 2 and increment `n_tx`.  (The source ignores the return
value of `alloc_bc`.) -/
def alloc_sibs_go (cfg : bc_cfg_t) (sfn sf_idx tti_tx_dl : Nat) :
    Nat → List cell_sib_cfg_t → List sched_sib_t → List sched_sib_t × List bc_alloc_t
  | _, _, [] => ([], [])
  | _, [], ps => (ps, [])
  | i, c :: cs, p :: ps =>
    let rest := alloc_sibs_go cfg sfn sf_idx tti_tx_dl (i + 1) cs ps
    -- `cfg->sibs[i].len > 0`, written as `¬ len = 0` (equivalent on Nat)
    if ¬ c.len = 0 ∧ p.is_in_window = true ∧ p.n_tx < 4 then
      if (i = 0 ∧ sfn % 2 = 0 ∧ sf_idx = 5) ∨
          (0 < i ∧
            (cfg.si_window_ms / (if 0 < i then min (ceil_div cfg.si_window_ms 10) 4 else 4))
                * p.n_tx ≤ tti_tx_dl - p.window_start ∧
            sf_idx = 9) then
        ({ p with n_tx := p.n_tx + 1 } :: rest.1, ⟨2, i, p.n_tx, tti_tx_dl⟩ :: rest.2)
      else (p :: rest.1, rest.2)
    else (p :: rest.1, rest.2)

/-- `bc_sched::dl_sched` (sans the external `alloc_paging`, whose RRC query
is the oracle `paging`): update the SI windows, then allocate SIBs; returns
the new per-SIB state, the `alloc_bc` calls made, and the paging allocation
`(aggr_level, payload)` if any. -/
def bc_dl_sched (cfg : bc_cfg_t) (paging : Nat → Option Nat)
    (pending_sibs : List sched_sib_t) (tti_tx_dl : Nat) :
    List sched_sib_t × List bc_alloc_t × Option (Nat × Nat) :=
  let sfn := tti_tx_dl / 10 % 1024
  let sf_idx := tti_tx_dl % 10
  let ps1 := update_si_windows_go cfg sfn sf_idx tti_tx_dl 0 cfg.sibs pending_sibs
  let res := alloc_sibs_go cfg sfn sf_idx tti_tx_dl 0 cfg.sibs ps1
  (res.1, res.2,
    match paging tti_tx_dl with
    | some payload => if 0 < payload then some (2, payload) else none
    | none => none)

/-- `bc_sched::reset`: zero every per-SIB entry. -/
def bc_sched_reset (ps : List sched_sib_t) : List sched_sib_t :=
  ps.map (fun _ => sched_sib_init)

/-- Drive `bc_sched::dl_sched` over a list of `tti_rx` values (each slot's
`tti_tx_dl = tti_rx + FDD_TX_DELAY`), collecting all `alloc_bc` calls. -/
def bc_run_ttis (cfg : bc_cfg_t) :
    List sched_sib_t → List Nat → List sched_sib_t × List bc_alloc_t
  | ps, [] => (ps, [])
  | ps, t :: ts =>
    let r := bc_dl_sched cfg (fun _ => none) ps (tti_tx_dl_of t)
    let rest := bc_run_ttis cfg r.1 ts
    (rest.1, r.2.1 ++ rest.2)

/-- The SIB1-cadence scenario configuration: `sibs[0].len = len > 0`,
`period_rf = 8`, the other SIB entries empty. -/
def c5_cfg (len : Nat) : bc_cfg_t :=
  { sibs := [⟨len, 8⟩, ⟨0, 16⟩, ⟨0, 32⟩], si_window_ms := 20 }

/-- A SIB entry with `len = 0` is skipped by `update_si_windows`. -/
theorem update_si_window_one_skip (cfg : bc_cfg_t) (sfn sf_idx t i : Nat)
    (c : cell_sib_cfg_t) (hc : c.len = 0) (p : sched_sib_t) :
    update_si_window_one cfg sfn sf_idx t i c p = p := by
  simp [update_si_window_one, hc]

/-- `update_si_window_one` reads the SIB length only through the `len = 0`
test, and the configuration only through `si_window_ms`. -/
theorem update_si_window_one_len_congr (cfg cfg' : bc_cfg_t)
    (hsi : cfg.si_window_ms = cfg'.si_window_ms)
    (len len' pr : Nat) (h : ¬ len = 0) (h' : ¬ len' = 0)
    (sfn sf_idx t i : Nat) (p : sched_sib_t) :
    update_si_window_one cfg sfn sf_idx t i ⟨len, pr⟩ p =
      update_si_window_one cfg' sfn sf_idx t i ⟨len', pr⟩ p := by
  unfold update_si_window_one
  rw [if_neg h, if_neg h', hsi]

/-- Over a tail of SIB entries that are all empty, `update_si_windows` is
the identity on the pending state. -/
theorem update_si_windows_go_all0 (cfg : bc_cfg_t) (sfn sf_idx t : Nat) :
    ∀ (cs : List cell_sib_cfg_t), (∀ c ∈ cs, c.len = 0) →
    ∀ (i : Nat) (ps : List sched_sib_t),
      update_si_windows_go cfg sfn sf_idx t i cs ps = ps := by
  intro cs
  induction cs with
  | nil =>
    intro _ i ps
    cases ps <;> rfl
  | cons c cs ih =>
    intro hc i ps
    cases ps with
    | nil => rfl
    | cons p ps =>
      show update_si_window_one cfg sfn sf_idx t i c p ::
          update_si_windows_go cfg sfn sf_idx t (i + 1) cs ps = p :: ps
      rw [update_si_window_one_skip cfg sfn sf_idx t i c (hc c (by simp)) p,
        ih (fun c' hc' => hc c' (by simp [hc'])) (i + 1) ps]

/-- Over a tail of SIB entries that are all empty, `alloc_sibs` allocates
nothing and keeps the pending state. -/
theorem alloc_sibs_go_all0 (cfg : bc_cfg_t) (sfn sf_idx t : Nat) :
    ∀ (cs : List cell_sib_cfg_t), (∀ c ∈ cs, c.len = 0) →
    ∀ (i : Nat) (ps : List sched_sib_t),
      alloc_sibs_go cfg sfn sf_idx t i cs ps = (ps, []) := by
  intro cs
  induction cs with
  | nil =>
    intro _ i ps
    cases ps <;> rfl
  | cons c cs ih =>
    intro hc i ps
    cases ps with
    | nil => rfl
    | cons p ps =>
      have hc0 : c.len = 0 := hc c (by simp)
      have hrest := ih (fun c' hc' => hc c' (by simp [hc'])) (i + 1) ps
      simp only [alloc_sibs_go, hc0, not_true_eq_false, false_and, if_false, hrest]

/-- Evaluation of `alloc_sibs` on the head SIB entry (index 0 = SIB1) with a
non-empty payload: the allocation fires exactly when the entry is in window
with `n_tx < 4`, the SFN is even and `sf_idx = 5`; the behaviour depends
neither on the payload length nor on the configuration. -/
theorem alloc_sibs_go_head_eval (cfg : bc_cfg_t) (len pr : Nat) (h : ¬ len = 0)
    (sfn sf_idx t : Nat) (cs : List cell_sib_cfg_t) (p : sched_sib_t)
    (ps : List sched_sib_t) :
    alloc_sibs_go cfg sfn sf_idx t 0 (⟨len, pr⟩ :: cs) (p :: ps) =
      if p.is_in_window = true ∧ p.n_tx < 4 ∧ sfn % 2 = 0 ∧ sf_idx = 5 then
        ({ p with n_tx := p.n_tx + 1 } :: (alloc_sibs_go cfg sfn sf_idx t (0 + 1) cs ps).1,
         ⟨2, 0, p.n_tx, t⟩ :: (alloc_sibs_go cfg sfn sf_idx t (0 + 1) cs ps).2)
      else (p :: (alloc_sibs_go cfg sfn sf_idx t (0 + 1) cs ps).1,
            (alloc_sibs_go cfg sfn sf_idx t (0 + 1) cs ps).2) := by
  simp only [alloc_sibs_go, h, not_false_eq_true, true_and, lt_self_iff_false, false_and,
    or_false, eq_self_iff_true]
  by_cases hin : p.is_in_window = true ∧ p.n_tx < 4
  · rw [if_pos hin]
    by_cases hf : sfn % 2 = 0 ∧ sf_idx = 5
    · rw [if_pos hf, if_pos ⟨hin.1, hin.2, hf⟩]
    · rw [if_neg hf, if_neg (fun hc => hf hc.2.2)]
  · rw [if_neg hin, if_neg (fun hc => hin ⟨hc.1, hc.2.1⟩)]

/-- In the SIB1 scenario, `bc_sched::dl_sched` behaves identically for every
non-zero `sibs[0].len`. -/
theorem bc_dl_sched_c5_congr (len : Nat) (h : ¬ len = 0) (ps : List sched_sib_t)
    (t : Nat) :
    bc_dl_sched (c5_cfg len) (fun _ => none) ps t =
      bc_dl_sched (c5_cfg 18) (fun _ => none) ps t := by
  have htl : ∀ c ∈ [(⟨0, 16⟩ : cell_sib_cfg_t), ⟨0, 32⟩], c.len = 0 := by decide
  have hupd : ∀ ps' : List sched_sib_t,
      update_si_windows_go (c5_cfg len) (t / 10 % 1024) (t % 10) t 0 (c5_cfg len).sibs ps' =
        update_si_windows_go (c5_cfg 18) (t / 10 % 1024) (t % 10) t 0 (c5_cfg 18).sibs ps' := by
    intro ps'
    cases ps' with
    | nil => rfl
    | cons p0 tl =>
      show update_si_window_one (c5_cfg len) _ _ _ 0 ⟨len, 8⟩ p0 ::
          update_si_windows_go (c5_cfg len) _ _ _ 1 [⟨0, 16⟩, ⟨0, 32⟩] tl =
        update_si_window_one (c5_cfg 18) _ _ _ 0 ⟨18, 8⟩ p0 ::
          update_si_windows_go (c5_cfg 18) _ _ _ 1 [⟨0, 16⟩, ⟨0, 32⟩] tl
      rw [update_si_window_one_len_congr (c5_cfg len) (c5_cfg 18) rfl len 18 8 h
          (by decide) (t / 10 % 1024) (t % 10) t 0 p0,
        update_si_windows_go_all0 (c5_cfg len) _ _ _ _ htl,
        update_si_windows_go_all0 (c5_cfg 18) _ _ _ _ htl]
  have halloc : ∀ ps' : List sched_sib_t,
      alloc_sibs_go (c5_cfg len) (t / 10 % 1024) (t % 10) t 0 (c5_cfg len).sibs ps' =
        alloc_sibs_go (c5_cfg 18) (t / 10 % 1024) (t % 10) t 0 (c5_cfg 18).sibs ps' := by
    intro ps'
    cases ps' with
    | nil => rfl
    | cons p0 tl =>
      show alloc_sibs_go (c5_cfg len) _ _ _ 0 (⟨len, 8⟩ :: [⟨0, 16⟩, ⟨0, 32⟩]) (p0 :: tl) =
        alloc_sibs_go (c5_cfg 18) _ _ _ 0 (⟨18, 8⟩ :: [⟨0, 16⟩, ⟨0, 32⟩]) (p0 :: tl)
      rw [alloc_sibs_go_head_eval (c5_cfg len) len 8 h _ _ _ _ p0 tl,
        alloc_sibs_go_head_eval (c5_cfg 18) 18 8 (by decide) _ _ _ _ p0 tl,
        alloc_sibs_go_all0 (c5_cfg len) _ _ _ _ htl,
        alloc_sibs_go_all0 (c5_cfg 18) _ _ _ _ htl]
  simp only [bc_dl_sched]
  rw [hupd ps, halloc _]

/-- In the SIB1 scenario, the whole drive behaves identically for every
non-zero `sibs[0].len`. -/
theorem bc_run_ttis_c5_congr (len : Nat) (h : ¬ len = 0) :
    ∀ (ts : List Nat) (ps : List sched_sib_t),
      bc_run_ttis (c5_cfg len) ps ts = bc_run_ttis (c5_cfg 18) ps ts := by
  intro ts
  induction ts with
  | nil => intro ps; rfl
  | cons t ts ih =>
    intro ps
    simp only [bc_run_ttis]
    rw [bc_dl_sched_c5_congr len h ps (tti_tx_dl_of t), ih]

/-- C5: with `sibs[0].len > 0`, driving `tti_rx = 0..160` from the reset
state fires `alloc_bc` for SIB 0 at aggregation level 2 exactly on the TTIs
whose SFN is even and whose `sf_idx` is 5 — `tti_tx_dl ∈ {5, 25, 45, 65,
85, 105, 125, 145}`, i.e. `(SFN, sf_idx) ∈ {(0,5),(2,5),(4,5),...}` — one
allocation each and none elsewhere, with `n_tx` incrementing 0,1,2,3 and
wrapping back to 0 for the next 80-ms cycle.
(Proved for every positive length via the congruence lemmas above, then by
computation at the representative length.) -/
theorem sib1_cadence (len : Nat) (h : 0 < len) :
    (bc_run_ttis (c5_cfg len) [sched_sib_init, sched_sib_init, sched_sib_init]
        (List.range 161)).2 =
      [⟨2, 0, 0, 5⟩, ⟨2, 0, 1, 25⟩, ⟨2, 0, 2, 45⟩, ⟨2, 0, 3, 65⟩,
       ⟨2, 0, 0, 85⟩, ⟨2, 0, 1, 105⟩, ⟨2, 0, 2, 125⟩, ⟨2, 0, 3, 145⟩] := by
  rw [bc_run_ttis_c5_congr len (by omega)]
  decide

/-- Witness for C5 at the spec's literal scenario (`sibs[0].len = 18`). -/
theorem sib1_cadence_witness :
    0 < 18 ∧
    (bc_run_ttis (c5_cfg 18) [sched_sib_init, sched_sib_init, sched_sib_init]
        (List.range 161)).2 =
      [⟨2, 0, 0, 5⟩, ⟨2, 0, 1, 25⟩, ⟨2, 0, 2, 45⟩, ⟨2, 0, 3, 65⟩,
       ⟨2, 0, 0, 85⟩, ⟨2, 0, 1, 105⟩, ⟨2, 0, 2, 125⟩, ⟨2, 0, 3, 145⟩] :=
  ⟨by decide, sib1_cadence 18 (by decide)⟩

/-! ### C6: UL mask invariants of `carrier_sched::alloc_ul_users`

UL PRB masks are modelled as finite sets of PRB indices; `fill(a, b)` of the
C bitset is the interval `[a, b)`, `|=` is union, `&` is intersection. -/

/-- The slice of the cell configuration that `alloc_ul_users` and the mask
setup of `carrier_cfg` read. -/
structure ul_cfg_t where
  nof_prb : Nat
  nrb_pucch : Nat
  prach_freq_offset : Nat
deriving DecidableEq, Repr

/-- The PUCCH mask built in `carrier_cfg`: the leftmost and rightmost
`nrb_pucch` PRBs (empty when `nrb_pucch = 0`, matching the guard in the
source). -/
def pucch_mask_of (cfg : ul_cfg_t) : Finset Nat :=
  if 0 < cfg.nrb_pucch then
    Finset.range cfg.nrb_pucch ∪ Finset.Ico (cfg.nof_prb - cfg.nrb_pucch) cfg.nof_prb
  else ∅

/-- The PRACH mask built in `carrier_cfg`: 6 PRBs from `prach_freq_offset`. -/
def prach_mask_of (cfg : ul_cfg_t) : Finset Nat :=
  Finset.Ico cfg.prach_freq_offset (cfg.prach_freq_offset + 6)

/-- The external collaborators of `alloc_ul_users`: the PRACH-opportunity
test (`srslte_prach_tti_opportunity_config_fdd`), the UL-mask effect of the
Msg3 allocations done by `ra_sched::ul_sched` via `sf_sched::alloc_ul`, and
the UL-mask effect of `ul_metric->sched_users`. -/
structure ul_users_ext where
  prach_opp : Nat → Bool
  msg3_step : Finset Nat → Finset Nat
  metric_step : Finset Nat → Finset Nat

/-- The UL mask just before the explicit `ul_mask |= pucch_mask` step of
`alloc_ul_users`: initialised to `prach_mask` on PRACH-opportunity TTIs,
then grown by the Msg3 allocations. -/
def ul_mask_before_pucch_or (cfg : ul_cfg_t) (ext : ul_users_ext) (tti_tx_ul : Nat)
    (ul_mask0 : Finset Nat) : Finset Nat :=
  ext.msg3_step (if ext.prach_opp tti_tx_ul then prach_mask_of cfg else ul_mask0)

/-- `carrier_sched::alloc_ul_users`: reserve PRACH PRBs, place Msg3s, detect
and log a PUCCH collision (for cells other than 6 PRB), OR in the PUCCH
mask, then run the UL metric.  Returns the final UL mask and whether the
collision was reported. -/
def alloc_ul_users (cfg : ul_cfg_t) (ext : ul_users_ext) (tti_tx_ul : Nat)
    (ul_mask0 : Finset Nat) : Finset Nat × Bool :=
  let m2 := ul_mask_before_pucch_or cfg ext tti_tx_ul ul_mask0
  (ext.metric_step (m2 ∪ pucch_mask_of cfg),
   decide (cfg.nof_prb ≠ 6 ∧ (m2 ∩ pucch_mask_of cfg).Nonempty))

/-- C6: provided the Msg3 placement and the UL metric only ever add PRBs to
the UL mask (the mask contract of §4.1/§4.5), after `alloc_ul_users` the UL
mask contains the whole PUCCH mask, and on PRACH-opportunity TTIs the whole
PRACH mask; and for cells with more than 6 PRBs, any overlap of the UL mask
with the PUCCH mask before the explicit OR step is reported as a
collision. -/
theorem alloc_ul_users_mask_invariants (cfg : ul_cfg_t) (ext : ul_users_ext)
    (tti_tx_ul : Nat) (ul_mask0 : Finset Nat)
    (hmsg3 : ∀ m : Finset Nat, m ⊆ ext.msg3_step m)
    (hmetric : ∀ m : Finset Nat, m ⊆ ext.metric_step m) :
    pucch_mask_of cfg ⊆ (alloc_ul_users cfg ext tti_tx_ul ul_mask0).1 ∧
    (ext.prach_opp tti_tx_ul = true →
      prach_mask_of cfg ⊆ (alloc_ul_users cfg ext tti_tx_ul ul_mask0).1) ∧
    (6 < cfg.nof_prb →
      (ul_mask_before_pucch_or cfg ext tti_tx_ul ul_mask0 ∩ pucch_mask_of cfg).Nonempty →
      (alloc_ul_users cfg ext tti_tx_ul ul_mask0).2 = true) := by
  refine ⟨?_, ?_, ?_⟩
  · exact Finset.Subset.trans Finset.subset_union_right
      (hmetric (ul_mask_before_pucch_or cfg ext tti_tx_ul ul_mask0 ∪ pucch_mask_of cfg))
  · intro hopp
    have h1 : prach_mask_of cfg ⊆ ul_mask_before_pucch_or cfg ext tti_tx_ul ul_mask0 := by
      unfold ul_mask_before_pucch_or
      rw [hopp]
      exact hmsg3 (prach_mask_of cfg)
    exact Finset.Subset.trans h1 (Finset.Subset.trans Finset.subset_union_left
      (hmetric (ul_mask_before_pucch_or cfg ext tti_tx_ul ul_mask0 ∪ pucch_mask_of cfg)))
  · intro hprb hne
    have h6 : cfg.nof_prb ≠ 6 := by omega
    simp [alloc_ul_users, h6, hne]

/-- Identity collaborators: no Msg3s to place, a metric that adds nothing,
PRACH opportunity on every TTI. -/
def c6_ext : ul_users_ext :=
  { prach_opp := fun _ => true, msg3_step := id, metric_step := id }

/-- Witness for C6 at the spec's scenario 6 (`nof_prb = 25`, `nrb_pucch = 2`,
`prach_freq_offset = 4`): after `alloc_ul_users` the UL mask contains PRBs
{0, 1, 23, 24} and, it being a PRACH TTI, PRBs 4..9. -/
theorem alloc_ul_users_mask_invariants_witness :
    pucch_mask_of ⟨25, 2, 4⟩ ⊆ (alloc_ul_users ⟨25, 2, 4⟩ c6_ext 8 ∅).1 ∧
    (c6_ext.prach_opp 8 = true →
      prach_mask_of ⟨25, 2, 4⟩ ⊆ (alloc_ul_users ⟨25, 2, 4⟩ c6_ext 8 ∅).1) ∧
    (6 < (⟨25, 2, 4⟩ : ul_cfg_t).nof_prb →
      (ul_mask_before_pucch_or ⟨25, 2, 4⟩ c6_ext 8 ∅ ∩ pucch_mask_of ⟨25, 2, 4⟩).Nonempty →
      (alloc_ul_users ⟨25, 2, 4⟩ c6_ext 8 ∅).2 = true) :=
  alloc_ul_users_mask_invariants ⟨25, 2, 4⟩ c6_ext 8 ∅
    (fun m => Finset.Subset.refl m) (fun m => Finset.Subset.refl m)

/-! ### Carrier scheduler (`carrier_sched`), for C7, C8, C9

`generate_tti_result` is embedded over a ring of subframe slots.  The parts
of the slot the carrier claims observe are explicit fields (bound TTI,
PHICH list, broadcast allocations, RA trace, pending-Msg3 queue); the rest
of the slot working state (masks, DCI candidates, result grids) is an
abstract type `β` transformed by the external collaborators (metrics,
`generate_dcis`, `alloc_rar`, Msg3 RIV decoding), which are deterministic
functions as in the source. -/

/-- Modelled from the spec: `MSG3_DELAY_MS` ("typically 6"); the constant is
defined outside this tree. -/
def MSG3_DELAY_MS : Nat := 6

/-- One PHICH element of `ul_sched_result` (value ACK = `true`). -/
structure phich_t where
  rnti : Nat
  ack : Bool
deriving DecidableEq, Repr

/-- The slice of the UE interface read by the carrier scheduler:
`get_cell_index(enb_cc_idx).first`, and the UL HARQ process for a given
`tti_rx` (`has_pending_ack` / `get_pending_ack`). -/
structure sched_ue_t where
  active_on_cc : Bool
  has_pending_ack : Nat → Bool
  get_pending_ack : Nat → Bool

/-- `carrier_sched::generate_phich`: iterate the UE database in order; for
each UE active on this carrier whose UL HARQ for `tti_rx` has a pending
ack, emit one PHICH element with the ack value. -/
def generate_phich (ue_db : List (Nat × sched_ue_t)) (tti_rx : Nat) : List phich_t :=
  ue_db.filterMap (fun u =>
    if u.2.active_on_cc = true then
      if u.2.has_pending_ack tti_rx = true then
        some ⟨u.1, u.2.get_pending_ack tti_rx⟩
      else none
    else none)

/-- One subframe slot of the ring (`sf_sched`), with the fields the carrier
claims observe made explicit and the rest abstracted as `body : β`. -/
structure sf_slot (β : Type) where
  tti_rx : Nat
  phich : List phich_t
  bc_allocs : List bc_alloc_t
  paging : Option (Nat × Nat)
  ra_trace : List ra_dl_event
  msg3_q : List pending_msg3_t
  body : β

/-- Carrier configuration: ring size, DL blackout vector (`sf_dl_mask`),
broadcast configuration, RAR window, and the fuel bound for the RA loop. -/
structure carrier_cfg_t where
  ring_sz : Nat
  sf_dl_mask : List Nat
  bc : bc_cfg_t
  prach_rar_window : Nat
  ra_fuel : Nat

/-- External collaborators of the carrier scheduler, all deterministic
functions: the RRC paging query, `sf_sched::alloc_rar`, the UL/DL metrics,
`generate_dcis`, the Msg3 derivation of `sched_msg3` (RIV decoding of the
slot's RAR result), the per-UE `finish_tti`, and the body reset done by
`new_tti`. -/
structure carrier_ext (β : Type) where
  rrc_paging : Nat → Option Nat
  alloc_rar : β → pending_rar_t → (alloc_outcome_t × Nat) × β
  ul_users_step : Nat → β → β
  dl_users_step : Nat → β → β
  gen_dcis : β → β
  msg3_derive : β → List pending_msg3_t
  ue_finish : sched_ue_t → sched_ue_t
  new_body : β → β

/-- The mutable state owned (or shared) by one carrier scheduler: the slot
ring (indexed modulo `ring_sz`), the RA and broadcast sub-scheduler states,
and the UE database. -/
structure carrier_state (β : Type) where
  slots : Nat → sf_slot β
  ra : ra_sched_state
  bc_sibs : List sched_sib_t
  ue_db : List (Nat × sched_ue_t)

/-- The carrier-level calls performed during one `generate_tti_result`. -/
inductive sched_call where
  | phich_gen
  | bc_dl
  | ra_dl
  | ul_users
  | dl_users
  | gen_dcis
  | msg3_sched (tti : Nat)
  | ue_finish
deriving DecidableEq, Repr

/-- `carrier_sched::alloc_ul_users` at the carrier level: `ra_sched::ul_sched`
drains the slot's pending-Msg3 queue (via the UE lookup), then the UL metric
fills the rest of the slot (the PRB-mask arithmetic of this function is
verified separately on the `Finset` model in `alloc_ul_users`). -/
def carrier_alloc_ul_users {β : Type} (ext : carrier_ext β)
    (ue_db : List (Nat × sched_ue_t)) (slot : sf_slot β) : sf_slot β :=
  { slot with
      msg3_q := (ra_ul_sched (fun r => (ue_db.map Prod.fst).contains r) slot.msg3_q).1,
      body := ext.ul_users_step slot.tti_rx slot.body }

/-- `carrier_sched::alloc_dl_users`: a no-op when the TTI's DL is blacked
out by `sf_dl_mask`, otherwise the DL metric fills the slot (the 6-PRB
special case is part of the abstracted body transformation). -/
def carrier_alloc_dl_users {β : Type} (sf_dl_mask : List Nat) (ext : carrier_ext β)
    (slot : sf_slot β) : sf_slot β :=
  if sf_dl_mask.getD (tti_tx_dl_of slot.tti_rx % sf_dl_mask.length) 0 ≠ 0 then slot
  else { slot with body := ext.dl_users_step slot.tti_rx slot.body }

/-- `sf_sched::new_tti`: rebind the slot and clear its per-TTI state; the
pending-Msg3 queue pre-filled by earlier TTIs survives to be consumed this
TTI. -/
def new_tti_slot {β : Type} (ext : carrier_ext β) (old : sf_slot β)
    (tti_rx : Nat) : sf_slot β :=
  { tti_rx := tti_rx, phich := [], bc_allocs := [], paging := none,
    ra_trace := [], msg3_q := old.msg3_q, body := ext.new_body old.body }

/-- The PDCCH round-robin of `generate_tti_result` (steps 4 and 5): on even
`tti_rx` UL users first then DL, on odd `tti_rx` DL first then UL; then
`generate_dcis`. -/
def rr_slot {β : Type} (sf_dl_mask : List Nat) (ext : carrier_ext β)
    (ue_db : List (Nat × sched_ue_t)) (tti_rx : Nat) (slot2 : sf_slot β) :
    sf_slot β :=
  let slotA := if tti_rx % 2 = 0 then carrier_alloc_ul_users ext ue_db slot2 else slot2
  let slotB := carrier_alloc_dl_users sf_dl_mask ext slotA
  let slotC := if tti_rx % 2 = 1 then carrier_alloc_ul_users ext ue_db slotB else slotB
  { slotC with body := ext.gen_dcis slotC.body }

/-- `sf_sched::alloc_msg3`: append pending Msg3s to a slot's queue. -/
def slot_add_msg3 {β : Type} (slot : sf_slot β) (ms : List pending_msg3_t) :
    sf_slot β :=
  { slot with msg3_q := slot.msg3_q ++ ms }

/-- The work branch of `carrier_sched::generate_tti_result` (executed when
the ring slot is not yet bound to `tti_rx`): `new_tti`, PHICH emission,
broadcast + RAR DL scheduling when DL is active, the even/odd PDCCH
round-robin over UL/DL users, DCI generation, Msg3 pre-allocation into the
slot `MSG3_DELAY_MS` ahead when DL was active, and the per-UE tick.
Returns the slot, the new carrier state, and the trace of carrier-level
calls in order. -/
def generate_tti_work {β : Type} (cfg : carrier_cfg_t) (ext : carrier_ext β)
    (s : carrier_state β) (tti_rx : Nat) :
    sf_slot β × carrier_state β × List sched_call :=
  let idx := tti_rx % cfg.ring_sz
  let ttd := tti_tx_dl_of tti_rx
  let dl_active := cfg.sf_dl_mask.getD (ttd % cfg.sf_dl_mask.length) 0 = 0
  -- PHICH emission, always (DL blackout does not suppress acks)
  let slot1 := { new_tti_slot ext (s.slots idx) tti_rx with
                   phich := generate_phich s.ue_db tti_rx }
  -- DL control data (broadcast then RAR), only when DL is active
  let bcres := bc_dl_sched cfg.bc ext.rrc_paging s.bc_sibs ttd
  let rares := ra_dl_sched_loop cfg.prach_rar_window ttd ext.alloc_rar cfg.ra_fuel
    slot1.body s.ra.pending_rars []
  let slot2 := if dl_active then
      { slot1 with bc_allocs := bcres.2.1, paging := bcres.2.2,
                   body := rares.2.1, ra_trace := rares.2.2.2 }
    else slot1
  let bc2 := if dl_active then bcres.1 else s.bc_sibs
  let ra2 : ra_sched_state := if dl_active then ⟨rares.2.2.1⟩ else s.ra
  -- PDCCH round-robin between UL and DL data, then DCI selection
  let slotD := rr_slot cfg.sf_dl_mask ext s.ue_db tti_rx slot2
  let slots1 := fun j => if j = idx then slotD else s.slots j
  -- enqueue Msg3s derived from the allocated RARs
  let tgt := (tti_rx + MSG3_DELAY_MS) % cfg.ring_sz
  let slots2 := if dl_active then
      (fun j => if j = tgt then slot_add_msg3 (slots1 j) (ext.msg3_derive slotD.body)
        else slots1 j)
    else slots1
  -- clean-up blocked pids
  let ue2 := s.ue_db.map (fun p => (p.1, ext.ue_finish p.2))
  (slots2 idx,
   { slots := slots2, ra := ra2, bc_sibs := bc2, ue_db := ue2 },
   [sched_call.phich_gen] ++
     (if dl_active then [sched_call.bc_dl, sched_call.ra_dl] else []) ++
     (if tti_rx % 2 = 0 then [sched_call.ul_users] else []) ++
     [sched_call.dl_users] ++
     (if tti_rx % 2 = 1 then [sched_call.ul_users] else []) ++
     [sched_call.gen_dcis] ++
     (if dl_active then [sched_call.msg3_sched (tti_rx + MSG3_DELAY_MS)] else []) ++
     [sched_call.ue_finish])

/-- `carrier_sched::generate_tti_result`: if the ring slot already carries
this `tti_rx`, return it unchanged (memoisation); otherwise run the per-TTI
work. -/
def generate_tti_result {β : Type} (cfg : carrier_cfg_t) (ext : carrier_ext β)
    (s : carrier_state β) (tti_rx : Nat) :
    sf_slot β × carrier_state β × List sched_call :=
  if (s.slots (tti_rx % cfg.ring_sz)).tti_rx = tti_rx then
    (s.slots (tti_rx % cfg.ring_sz), s, [])
  else generate_tti_work cfg ext s tti_rx

theorem rr_slot_fields {β : Type} (m : List Nat) (ext : carrier_ext β)
    (u : List (Nat × sched_ue_t)) (t : Nat) (slot : sf_slot β) :
    (rr_slot m ext u t slot).tti_rx = slot.tti_rx ∧
    (rr_slot m ext u t slot).phich = slot.phich := by
  unfold rr_slot carrier_alloc_ul_users carrier_alloc_dl_users
  dsimp only
  constructor <;> (split_ifs <;> rfl)

theorem slot_add_msg3_fields {β : Type} (slot : sf_slot β)
    (ms : List pending_msg3_t) :
    (slot_add_msg3 slot ms).tti_rx = slot.tti_rx ∧
    (slot_add_msg3 slot ms).phich = slot.phich := ⟨rfl, rfl⟩

theorem generate_tti_work_slot_eq {β : Type} (cfg : carrier_cfg_t)
    (ext : carrier_ext β) (s : carrier_state β) (t : Nat) :
    (generate_tti_work cfg ext s t).2.1.slots (t % cfg.ring_sz) =
      (generate_tti_work cfg ext s t).1 := rfl

theorem generate_tti_work_slot_fields {β : Type} (cfg : carrier_cfg_t)
    (ext : carrier_ext β) (s : carrier_state β) (t : Nat) :
    (generate_tti_work cfg ext s t).1.tti_rx = t ∧
    (generate_tti_work cfg ext s t).1.phich = generate_phich s.ue_db t := by
  unfold generate_tti_work
  dsimp only
  by_cases hdl : cfg.sf_dl_mask.getD (tti_tx_dl_of t % cfg.sf_dl_mask.length) 0 = 0
  · simp only [hdl, eq_self_iff_true, if_true, not_true_eq_false, if_false]
    by_cases htgt : t % cfg.ring_sz = (t + MSG3_DELAY_MS) % cfg.ring_sz
    · simp only [htgt, eq_self_iff_true, if_true, slot_add_msg3_fields, rr_slot_fields]
      refine ⟨?_, ?_⟩ <;> first | rfl | trivial
    · simp only [htgt, if_false, rr_slot_fields]
      refine ⟨?_, ?_⟩ <;> first | rfl | trivial
  · simp only [hdl, if_false, eq_self_iff_true, if_true, rr_slot_fields]
    refine ⟨?_, ?_⟩ <;> first | rfl | trivial

/-- C7: calling `generate_tti_result` twice with the same `tti_rx` returns
the same subframe-slot object both times, and the second call performs no
scheduling work (empty call trace) and mutates no scheduler state (the
returned state is the first call's state, unchanged). -/
theorem generate_tti_result_idempotent {β : Type} (cfg : carrier_cfg_t)
    (ext : carrier_ext β) (s : carrier_state β) (tti_rx : Nat) :
    generate_tti_result cfg ext (generate_tti_result cfg ext s tti_rx).2.1 tti_rx =
      ((generate_tti_result cfg ext s tti_rx).1,
       (generate_tti_result cfg ext s tti_rx).2.1, []) := by
  by_cases hmemo : (s.slots (tti_rx % cfg.ring_sz)).tti_rx = tti_rx
  · simp only [generate_tti_result, if_pos hmemo]
  · have hcond : ((generate_tti_work cfg ext s tti_rx).2.1.slots
        (tti_rx % cfg.ring_sz)).tti_rx = tti_rx := by
      rw [generate_tti_work_slot_eq]
      exact (generate_tti_work_slot_fields cfg ext s tti_rx).1
    simp only [generate_tti_result, if_neg hmemo, if_pos hcond]
    rw [generate_tti_work_slot_eq]

/-- The two data-plane scheduling calls of the PDCCH round-robin. -/
def is_user_alloc_call : sched_call → Bool
  | .ul_users => true
  | .dl_users => true
  | _ => false

/-- C8: within every first invocation of `generate_tti_result(tti_rx)`, the
data-plane calls are exactly one `alloc_ul_users` and one `alloc_dl_users`,
with UL first on even `tti_rx` and DL first on odd `tti_rx`. -/
theorem pdcch_round_robin {β : Type} (cfg : carrier_cfg_t) (ext : carrier_ext β)
    (s : carrier_state β) (tti_rx : Nat)
    (h : (s.slots (tti_rx % cfg.ring_sz)).tti_rx ≠ tti_rx) :
    ((generate_tti_result cfg ext s tti_rx).2.2.filter is_user_alloc_call) =
      (if tti_rx % 2 = 0 then [sched_call.ul_users, sched_call.dl_users]
       else [sched_call.dl_users, sched_call.ul_users]) := by
  simp only [generate_tti_result, if_neg h]
  unfold generate_tti_work
  dsimp only
  by_cases hdl : cfg.sf_dl_mask.getD (tti_tx_dl_of tti_rx % cfg.sf_dl_mask.length) 0 = 0 <;>
    by_cases hpar : tti_rx % 2 = 0
  · have hpar1 : ¬ tti_rx % 2 = 1 := by omega
    rw [if_pos hdl, if_pos hdl]
    simp [is_user_alloc_call, hpar, hpar1]
  · have hpar1 : tti_rx % 2 = 1 := by omega
    rw [if_pos hdl, if_pos hdl]
    simp [is_user_alloc_call, hpar, hpar1]
  · have hpar1 : ¬ tti_rx % 2 = 1 := by omega
    rw [if_neg hdl, if_neg hdl]
    simp [is_user_alloc_call, hpar, hpar1]
  · have hpar1 : tti_rx % 2 = 1 := by omega
    rw [if_neg hdl, if_neg hdl]
    simp [is_user_alloc_call, hpar, hpar1]

/-- C9: PHICH emission produces at most one element per UE database entry
(`nof_phich_elems ≤ |UeDb|`); an element for an RNTI is emitted with the
HARQ ack value exactly when that UE is active on the carrier and its UL
HARQ process for `tti_rx` has a pending ack; and on every first invocation
of `generate_tti_result` — with no condition on `sf_dl_mask`, so also on
DL-blacked-out TTIs — the returned slot carries exactly this PHICH list. -/
theorem phich_emission {β : Type} (cfg : carrier_cfg_t) (ext : carrier_ext β)
    (s : carrier_state β) (t : Nat) (ue_db : List (Nat × sched_ue_t))
    (p : phich_t) :
    (generate_phich ue_db t).length ≤ ue_db.length ∧
    (p ∈ generate_phich ue_db t ↔ ∃ u : sched_ue_t, (p.rnti, u) ∈ ue_db ∧
        u.active_on_cc = true ∧ u.has_pending_ack t = true ∧
        p.ack = u.get_pending_ack t) ∧
    ((s.slots (t % cfg.ring_sz)).tti_rx ≠ t →
      (generate_tti_result cfg ext s t).1.phich = generate_phich s.ue_db t) := by
  refine ⟨List.length_filterMap_le _ _, ⟨?_, ?_⟩, ?_⟩
  · intro hp
    rcases List.mem_filterMap.mp hp with ⟨⟨r, u⟩, hmem, hf⟩
    dsimp only at hf
    by_cases ha : u.active_on_cc = true
    · rw [if_pos ha] at hf
      by_cases hk : u.has_pending_ack t = true
      · rw [if_pos hk] at hf
        have hpe := Option.some.inj hf
        subst hpe
        exact ⟨u, hmem, ha, hk, rfl⟩
      · rw [if_neg hk] at hf; cases hf
    · rw [if_neg ha] at hf; cases hf
  · rintro ⟨u, hmem, ha, hk, hv⟩
    refine List.mem_filterMap.mpr ⟨(p.rnti, u), hmem, ?_⟩
    dsimp only
    rw [if_pos ha, if_pos hk, ← hv]
  · intro hne
    simp only [generate_tti_result, if_neg hne]
    exact (generate_tti_work_slot_fields cfg ext s t).2

/-- Trivial external collaborators over a unit slot body, for the carrier
witnesses. -/
def c8_ext : carrier_ext Unit :=
  { rrc_paging := fun _ => none, alloc_rar := fun b _ => ((.RB_COLLISION, 0), b),
    ul_users_step := fun _ b => b, dl_users_step := fun _ b => b,
    gen_dcis := id, msg3_derive := fun _ => [], ue_finish := id, new_body := id }

/-- A small carrier configuration for the carrier witnesses. -/
def c8_cfg : carrier_cfg_t :=
  { ring_sz := 8, sf_dl_mask := [0], bc := c5_cfg 18, prach_rar_window := 5,
    ra_fuel := 4 }

/-- A fresh ring slot bound to TTI 0. -/
def c8_slot : sf_slot Unit :=
  { tti_rx := 0, phich := [], bc_allocs := [], paging := none, ra_trace := [],
    msg3_q := [], body := () }

/-- A fresh carrier state with an empty UE database. -/
def c8_state : carrier_state Unit :=
  { slots := fun _ => c8_slot, ra := ⟨[]⟩,
    bc_sibs := [sched_sib_init, sched_sib_init, sched_sib_init], ue_db := [] }

/-- Witness for C8 at a concrete odd TTI: DL users are scheduled before UL
users. -/
theorem pdcch_round_robin_witness :
    ((generate_tti_result c8_cfg c8_ext c8_state 1).2.2.filter is_user_alloc_call) =
      (if 1 % 2 = 0 then [sched_call.ul_users, sched_call.dl_users]
       else [sched_call.dl_users, sched_call.ul_users]) :=
  pdcch_round_robin c8_cfg c8_ext c8_state 1 (by decide)

/-- A UE active on the carrier with a pending ACK on even TTIs. -/
def c9_ue : sched_ue_t :=
  { active_on_cc := true, has_pending_ack := fun t => decide (t % 2 = 0),
    get_pending_ack := fun _ => true }

/-- A fresh carrier state whose UE database holds the one UE `c9_ue`. -/
def c9_state : carrier_state Unit :=
  { slots := fun _ => c8_slot, ra := ⟨[]⟩,
    bc_sibs := [sched_sib_init, sched_sib_init, sched_sib_init],
    ue_db := [(70, c9_ue)] }

/-- Witness for C9 at concrete inputs: one UE with a pending ACK yields one
ACK PHICH element, within the `|UeDb|` bound, and the generated slot carries
the PHICH list. -/
theorem phich_emission_witness :
    (generate_phich [(70, c9_ue)] 4).length ≤ [(70, c9_ue)].length ∧
    (⟨70, true⟩ : phich_t) ∈ generate_phich [(70, c9_ue)] 4 ∧
    (generate_tti_result c8_cfg c8_ext c9_state 1).1.phich =
      generate_phich c9_state.ue_db 1 :=
  ⟨(phich_emission c8_cfg c8_ext c9_state 4 [(70, c9_ue)] ⟨70, true⟩).1,
   (phich_emission c8_cfg c8_ext c9_state 4 [(70, c9_ue)] ⟨70, true⟩).2.1.mpr
     ⟨c9_ue, List.mem_singleton.mpr rfl, rfl, rfl, rfl⟩,
   (phich_emission c8_cfg c8_ext c9_state 1 [] ⟨0, true⟩).2.2 (by decide)⟩

end srsenb
